import Mathlib

/-!
Verification of the real-time broadcast and room-membership subsystem of the
task-manager backend (Flask + Flask-SocketIO), shallowly embedded in Lean.

The embedding follows the source files:
  - `app/websockets/events.py` (connect / join_project / leave_project
    handlers and the `broadcast_task_update` fan-out helper);
  - `app/websocket/broadcast_utils.py` (`broadcast_task_assignment`,
    `broadcast_project_stats_update`);
  - `app/api/auth.py` (`logout`, the in-memory `blacklisted_tokens` set);
  - `app/api/tasks.py` (`create_task`).
Room membership is kept by the SocketIO framework's `join_room` /
`leave_room`; those two primitives are modelled from the spec's Room
Manager contract (set semantics), everything else from the source.
Python integer truthiness (`if x:` is false for `None` and `0`) is made
explicit via `truthy` on `Option Nat`.
-/

namespace TaskManager

/-- A room key: SocketIO room names `user_{id}` and `project_{id}` from the
source, represented structurally. -/
inductive RoomKey where
  | user (id : Nat)
  | project (id : Nat)
deriving DecidableEq, Repr

/-- Connection identifier (SocketIO `sid`). -/
abbrev ConnId := Nat

/-- Token identifier (`jti` of a JWT). -/
abbrev Tok := Nat

/-- Python truthiness of an optional integer field of a payload dict:
`task_data.get(k)` is falsy when the key is absent (`none`) or its value
is `0`. -/
def truthy : Option Nat → Bool
  | none => false
  | some n => n != 0

/-- The fields of a serialized task payload (`task.to_dict()`) that
`broadcast_task_update` reads. -/
structure TaskData where
  created_by : Option Nat
  assigned_to : Option Nat
  project_id : Option Nat
deriving DecidableEq, Repr

/-- The rooms `broadcast_task_update` emits the event to, in emission order
(`app/websockets/events.py`, lines 90-105): the creator's user room when
`created_by` is truthy; the assignee's user room when `assigned_to` is
truthy and differs from `created_by`; the project room when `project_id`
is truthy.  The whole body is wrapped in try/except in the source, so the
function always returns (modelled by totality). -/
def broadcast_task_update (td : TaskData) : List RoomKey :=
  (if truthy td.created_by then [RoomKey.user (td.created_by.getD 0)] else [])
    ++ (if truthy td.assigned_to && (td.assigned_to != td.created_by) then
          [RoomKey.user (td.assigned_to.getD 0)] else [])
    ++ (if truthy td.project_id then [RoomKey.project (td.project_id.getD 0)] else [])

/-- C1: for a TaskCreated/Updated/Deleted payload carrying truthy creator,
assignee and project id, the resolved target room set is exactly
`{(user, creator)} ∪ {(user, assignee) | assignee ≠ creator} ∪
{(project, project_id)}`; in particular no other user room (such as the
project owner's) is ever targeted. -/
theorem task_update_rooms_exact (c a p : Nat) (hc : c ≠ 0) (ha : a ≠ 0) (hp : p ≠ 0) :
    ∀ r : RoomKey,
      r ∈ broadcast_task_update ⟨some c, some a, some p⟩ ↔
        (r = RoomKey.user c ∨ (a ≠ c ∧ r = RoomKey.user a) ∨ r = RoomKey.project p) := by
  intro r
  simp only [broadcast_task_update, truthy, Option.getD_some]
  by_cases hac : a = c
  · subst hac
    simp only [bne_self_eq_false, Bool.and_false, if_false]
    simp [hc, hp, List.mem_append]
  · have hbne : ((some a : Option Nat) != some c) = true := by
      simp [bne_iff_ne, hac]
    simp only [hbne]
    simp [hc, ha, hp, hac, List.mem_append]

/-- Witness for C1, the spec's scenario: creator 1, assignee 3, project 7
(owner 2): target rooms are exactly `{(user,1),(user,3),(project,7)}`, and
the owner's room `(user,2)` is not targeted. -/
theorem task_update_rooms_exact_witness :
    (RoomKey.user 1 ∈ broadcast_task_update ⟨some 1, some 3, some 7⟩
      ∧ RoomKey.user 3 ∈ broadcast_task_update ⟨some 1, some 3, some 7⟩
      ∧ RoomKey.project 7 ∈ broadcast_task_update ⟨some 1, some 3, some 7⟩)
    ∧ RoomKey.user 2 ∉ broadcast_task_update ⟨some 1, some 3, some 7⟩ := by
  have h := task_update_rooms_exact 1 3 7 (by decide) (by decide) (by decide)
  refine ⟨⟨?_, ?_, ?_⟩, ?_⟩
  · exact (h (RoomKey.user 1)).mpr (Or.inl rfl)
  · exact (h (RoomKey.user 3)).mpr (Or.inr (Or.inl ⟨by decide, rfl⟩))
  · exact (h (RoomKey.project 7)).mpr (Or.inr (Or.inr rfl))
  · intro hmem
    rcases (h (RoomKey.user 2)).mp hmem with h1 | ⟨_, h2⟩ | h3
    · exact absurd h1 (by decide)
    · exact absurd h2 (by decide)
    · exact absurd h3 (by decide)

/-- C9: `broadcast_task_update` emits nothing when all three payload fields
are absent or falsy (the event is dropped, and by totality no error is
raised), and each emission occurs only for a present, truthy field. -/
theorem task_update_rooms_truthy_guard (td : TaskData) :
    (truthy td.created_by = false → truthy td.assigned_to = false →
      truthy td.project_id = false → broadcast_task_update td = [])
    ∧ (∀ c : Nat, RoomKey.user c ∈ broadcast_task_update td →
        (td.created_by = some c ∧ c ≠ 0) ∨ (td.assigned_to = some c ∧ c ≠ 0))
    ∧ (∀ p : Nat, RoomKey.project p ∈ broadcast_task_update td →
        td.project_id = some p ∧ p ≠ 0) := by
  obtain ⟨cb, at_, pid⟩ := td
  refine ⟨?_, ?_, ?_⟩
  · intro h1 h2 h3
    simp [broadcast_task_update, h1, h2, h3]
  · intro c hc
    simp only [broadcast_task_update, List.mem_append] at hc
    rcases hc with (hc | hc) | hc
    · left
      rcases cb with _ | n
      · simp [truthy] at hc
      · by_cases hn : n = 0
        · subst hn; simp [truthy] at hc
        · simp only [truthy, bne_iff_ne, ne_eq, hn, not_false_iff, if_true,
            List.mem_singleton, Option.getD_some] at hc
          rcases hc with hc
          simp only [RoomKey.user.injEq] at hc
          subst hc
          exact ⟨rfl, hn⟩
    · right
      rcases at_ with _ | n
      · simp [truthy] at hc
      · by_cases hn : n = 0
        · subst hn; simp [truthy] at hc
        · by_cases hab : ((some n : Option Nat) != cb) = true
          · simp only [truthy, hab, Bool.and_true, hn] at hc
            simp only [bne_iff_ne, ne_eq, hn, not_false_iff, if_true,
              List.mem_singleton, Option.getD_some] at hc
            simp only [RoomKey.user.injEq] at hc
            subst hc
            exact ⟨rfl, hn⟩
          · simp only [Bool.not_eq_true] at hab
            simp [truthy, hab] at hc
    · rcases pid with _ | n
      · simp [truthy] at hc
      · by_cases hn : n = 0
        · subst hn; simp [truthy] at hc
        · simp [truthy, hn] at hc
  · intro p hp
    simp only [broadcast_task_update, List.mem_append] at hp
    rcases hp with (hp | hp) | hp
    · split at hp <;> simp_all
    · split at hp <;> simp_all
    · rcases pid with _ | n
      · simp [truthy] at hp
      · by_cases hn : n = 0
        · subst hn; simp [truthy] at hp
        · simp only [truthy, bne_iff_ne, ne_eq, hn, not_false_iff, if_true,
            List.mem_singleton, Option.getD_some] at hp
          simp only [RoomKey.project.injEq] at hp
          subst hp
          exact ⟨rfl, hn⟩

/-- Witness for C9 at the all-falsy payload `{created_by: None,
assigned_to: 0, project_id: None}`: no room is emitted. -/
theorem task_update_rooms_truthy_guard_witness :
    broadcast_task_update ⟨none, some 0, none⟩ = [] :=
  (task_update_rooms_truthy_guard ⟨none, some 0, none⟩).1 (by decide) (by decide) (by decide)

/-! ### Delivery fan-out of `broadcast_task_update` (claim C2)

`broadcast_task_update` issues one independent `socketio.emit(..., room=r)`
per target room; each such call hands the payload to every member of `r`.
There is no cross-call deduplication anywhere in the source, so the
deliveries of one broadcast are the concatenation of the member lists of
the emitted rooms. -/

/-- Deliveries of one `broadcast_task_update` call, given a membership
snapshot: the payload is identical for every emit, so a delivery is just
the receiving connection id. -/
def deliveriesOf (membership : RoomKey → List ConnId) (td : TaskData) : List ConnId :=
  (broadcast_task_update td).flatMap membership

/-- A membership snapshot in which connection 42 is a member of both
`user_1` and `project_7` (e.g. the task creator who also joined the
project room). -/
def twoRoomMembership : RoomKey → List ConnId := fun r =>
  if r = RoomKey.user 1 then [42]
  else if r = RoomKey.project 7 then [42]
  else []

/-- Counterexample to C2 as stated: for the task payload with creator 1 and
project 7, connection 42 is a member of two of the target rooms and
receives the payload twice (and the total number of messages is 2 while
there is only 1 distinct member connection): the source deduplicates
nothing. -/
theorem publish_no_dedup_counterexample :
    (deliveriesOf twoRoomMembership ⟨some 1, none, some 7⟩).count 42 = 2
    ∧ (deliveriesOf twoRoomMembership ⟨some 1, none, some 7⟩).length = 2
    ∧ (deliveriesOf twoRoomMembership ⟨some 1, none, some 7⟩).dedup.length = 1 := by
  decide

/-- C2 amended: each connection receives one copy per target room that
contains it (duplicate-free member lists assumed); a connection belonging
to k target rooms receives exactly k copies, with no deduplication by
connection id. -/
theorem publish_per_room_delivery (m : RoomKey → List ConnId) (td : TaskData) (c : ConnId)
    (h : ∀ r, (m r).Nodup) :
    (deliveriesOf m td).count c =
      ((broadcast_task_update td).countP (fun r => decide (c ∈ m r))) := by
  unfold deliveriesOf
  induction broadcast_task_update td with
  | nil => simp
  | cons r rs ih =>
    rw [List.flatMap_cons, List.count_append, ih, List.countP_cons]
    by_cases hm : c ∈ m r
    · rw [List.count_eq_one_of_mem (h r) hm]
      simp [hm, Nat.add_comm]
    · rw [List.count_eq_zero_of_not_mem hm]
      simp [hm]

/-- Witness for the amended C2 at the two-room snapshot: connection 42 is
counted once for each of the two target rooms containing it. -/
theorem publish_per_room_delivery_witness :
    (deliveriesOf twoRoomMembership ⟨some 1, none, some 7⟩).count 42 =
      ((broadcast_task_update ⟨some 1, none, some 7⟩).countP
        (fun r => decide (42 ∈ twoRoomMembership r))) :=
  publish_per_room_delivery twoRoomMembership ⟨some 1, none, some 7⟩ 42 (by
    intro r
    unfold twoRoomMembership
    by_cases h1 : r = RoomKey.user 1
    · simp [h1]
    · by_cases h2 : r = RoomKey.project 7 <;> simp [h1, h2])

/-! ### Connection/room/blacklist state and the WebSocket handlers -/

/-- Process-wide mutable state relevant to the handlers: the in-memory
token blacklist (`blacklisted_tokens` in `app/api/auth.py`), the framework's
connection registry, and room membership as a list of
`(room, connection)` pairs. -/
structure ServerState where
  blacklist : List Tok
  registry : List (ConnId × Nat × Tok)
  rooms : List (RoomKey × ConnId)
deriving DecidableEq, Repr

/-- Members of a room in a state: the connections joined to it. -/
def members (s : ServerState) (r : RoomKey) : List ConnId :=
  (s.rooms.filter (fun p => p.1 == r)).map Prod.snd

/-- Modelled from the spec: the SocketIO framework's `join_room` primitive
(not part of this repository). Spec §4.2 Room Manager `join`: adds the
connection to the room's member set; membership has set semantics, so
joining a room one is already in is a no-op. -/
def join_room (s : ServerState) (c : ConnId) (r : RoomKey) : ServerState :=
  if (r, c) ∈ s.rooms then s else { s with rooms := (r, c) :: s.rooms }

/-- Modelled from the spec: the SocketIO framework's `leave_room` primitive
(not part of this repository). Spec §4.2 Room Manager `leave`: removes the
connection from the room's member set; a no-op if it is not a member. -/
def leave_room (s : ServerState) (c : ConnId) (r : RoomKey) : ServerState :=
  { s with rooms := s.rooms.filter (fun p => p != (r, c)) }

/-- Events emitted back to the issuing connection by the handlers. -/
inductive Emit where
  | connected (uid : Nat)
  | statusJoined (pid : Nat)
  | statusLeft (pid : Nat)
  | errorJoin
  | errorLeave
deriving DecidableEq, Repr

/-- `logout` (`app/api/auth.py`, lines 179-190): adds the token's `jti` to
the in-memory `blacklisted_tokens` set.  That is its entire effect: no
connection is deregistered and no room membership changes. -/
def logout (s : ServerState) (jti : Tok) : ServerState :=
  if jti ∈ s.blacklist then s else { s with blacklist := jti :: s.blacklist }

/-- `on_join_project` (`app/websockets/events.py`, lines 59-73).
`verify_jwt_in_request()` consults the blocklist loader registered in
`app/__init__.py` over `blacklisted_tokens`, so it raises for a revoked
token; the surrounding try/except then emits the error event.  Otherwise
the handler reads `data.get('project_id')` and, when truthy, joins the
project room — the access check is absent in the source (only a TODO
comment stands in its place). -/
def on_join_project (s : ServerState) (c : ConnId) (tok : Tok) (data : Option Nat) :
    ServerState × List Emit :=
  if tok ∈ s.blacklist then (s, [Emit.errorJoin])
  else if truthy data then
    (join_room s c (RoomKey.project (data.getD 0)), [Emit.statusJoined (data.getD 0)])
  else (s, [])

/-- `on_leave_project` (`app/websockets/events.py`, lines 76-86): no token
verification at all; when `data.get('project_id')` is truthy the
connection leaves the project room. -/
def on_leave_project (s : ServerState) (c : ConnId) (data : Option Nat) :
    ServerState × List Emit :=
  if truthy data then
    (leave_room s c (RoomKey.project (data.getD 0)), [Emit.statusLeft (data.getD 0)])
  else (s, [])

/-- `broadcast_user_notification` (`app/websockets/events.py`, lines
123-128): emits a notification to the room `user_{user_id}`; the delivery
list is that room's membership. -/
def broadcast_user_notification (s : ServerState) (uid : Nat) : List ConnId :=
  members s (RoomKey.user uid)

/-- Connection lifecycle states of the spec's session state machine. -/
inductive ConnState where
  | connecting
  | authenticated
  | closed
deriving DecidableEq, Repr

/-- Token resolution in `on_connect` (`app/websockets/events.py`, lines
12-16): the `auth` payload's `token` entry wins when the key is present
(even if its value is falsy — the `elif` is then not evaluated); otherwise
a truthy `token` query parameter is used.  A falsy resolved token is
reported as `none` (`if not token: ... disconnect()`). -/
def resolveToken (authTok queryTok : Option Tok) : Option Tok :=
  match authTok with
  | some t => if t = 0 then none else some t
  | none =>
    match queryTok with
    | some t => if t = 0 then none else some t
    | none => none

/-- `on_connect` (`app/websockets/events.py`, lines 7-44): missing or falsy
token, or failed JWT verification (invalid signature/expiry, modelled by
`valid`, or a blacklisted `jti`), leads to `disconnect()` and `return
False` — the connection is closed having joined no room.  On success the
framework registers the connection (modelled from spec §4.1) and the
handler auto-joins the per-user room `user_{user_id}`. -/
def on_connect (s : ServerState) (c : ConnId) (authTok queryTok : Option Tok)
    (valid : Tok → Bool) (identity : Tok → Nat) : ServerState × ConnState × List Emit :=
  match resolveToken authTok queryTok with
  | none => (s, ConnState.closed, [])
  | some t =>
    if valid t = true ∧ t ∉ s.blacklist then
      let uid := identity t
      (join_room { s with registry := (c, uid, t) :: s.registry } c (RoomKey.user uid),
        ConnState.authenticated, [Emit.connected uid])
    else (s, ConnState.closed, [])

/-- The state used for the C3 failing input: connection 1 belongs to user 5
(token 10) and is joined to its own user room only; user 5 has no access
to project 7 (no access predicate occurs in the handler at all). -/
def noAccessJoinState : ServerState :=
  { blacklist := [], registry := [(1, 5, 10)], rooms := [(RoomKey.user 5, 1)] }

/-- C3 evaluated on the code at the failing input: `on_join_project` for
project 7 adds connection 1 to the project room and answers with the
*status* event even though the issuing user has no access — the source
performs no access check (the claimed rejection, unchanged membership and
error event do not happen). -/
theorem join_project_no_access_check :
    (on_join_project noAccessJoinState 1 10 (some 7)).1.rooms
        = (RoomKey.project 7, 1) :: noAccessJoinState.rooms
    ∧ (on_join_project noAccessJoinState 1 10 (some 7)).2 = [Emit.statusJoined 7] := by
  decide

/-- The state used for the C4 counterexample: connection 1, authenticated
as user 1 with token `jti` 5, joined to its user room. -/
def revokedTraceState : ServerState :=
  { blacklist := [], registry := [(1, 1, 5)], rooms := [(RoomKey.user 1, 1)] }

/-- Counterexample to C4 as stated: after `logout` revokes token 5, the
bound connection 1 is still in the registry and in its user room, and the
very next send to that room successfully delivers to it — the connection
is not closed or deregistered before the next successful send. -/
theorem revoke_keeps_connection_counterexample :
    (logout revokedTraceState 5).registry = revokedTraceState.registry
    ∧ (logout revokedTraceState 5).rooms = revokedTraceState.rooms
    ∧ broadcast_user_notification (logout revokedTraceState 5) 1 = [1] := by
  decide

/-- C4 amended: revoking a token id only records it in the in-memory
blacklist — the bound connection stays registered and in its rooms and
keeps receiving sends; the revocation is noticed only when that connection
issues a `join_project` request, which is then answered with an error
event and leaves all state unchanged. -/
theorem revoke_only_blacklists (s : ServerState) (t : Tok) :
    (logout s t).registry = s.registry
    ∧ (logout s t).rooms = s.rooms
    ∧ t ∈ (logout s t).blacklist
    ∧ (∀ uid : Nat, broadcast_user_notification (logout s t) uid
        = broadcast_user_notification s uid)
    ∧ (∀ c : ConnId, ∀ data : Option Nat,
        on_join_project (logout s t) c t data = (logout s t, [Emit.errorJoin])) := by
  have hmem : t ∈ (logout s t).blacklist := by
    unfold logout
    by_cases h : t ∈ s.blacklist
    · simp [h]
    · simp [h]
  have hreg : (logout s t).registry = s.registry := by
    unfold logout
    by_cases h : t ∈ s.blacklist <;> simp [h]
  have hrooms : (logout s t).rooms = s.rooms := by
    unfold logout
    by_cases h : t ∈ s.blacklist <;> simp [h]
  refine ⟨hreg, hrooms, hmem, ?_, ?_⟩
  · intro uid
    unfold broadcast_user_notification members
    rw [hrooms]
  · intro c data
    unfold on_join_project
    simp [hmem]

/-- C7: a transport-level connect with a missing/falsy token, or one whose
verification fails (invalid or blacklisted), moves the connection straight
to `Closed`, leaving state untouched and joining no room; only on
successful verification does it become `Authenticated`, with exactly the
per-user room `user_{user_id}` auto-joined. -/
theorem connect_auth_gate (s : ServerState) (c : ConnId) (authTok queryTok : Option Tok)
    (valid : Tok → Bool) (identity : Tok → Nat) :
    (resolveToken authTok queryTok = none →
      on_connect s c authTok queryTok valid identity = (s, ConnState.closed, []))
    ∧ (∀ t : Tok, resolveToken authTok queryTok = some t →
        (valid t = false ∨ t ∈ s.blacklist) →
        on_connect s c authTok queryTok valid identity = (s, ConnState.closed, []))
    ∧ (∀ t : Tok, resolveToken authTok queryTok = some t →
        valid t = true → t ∉ s.blacklist →
        (on_connect s c authTok queryTok valid identity).2.1 = ConnState.authenticated
        ∧ (on_connect s c authTok queryTok valid identity).1.rooms
            = (if (RoomKey.user (identity t), c) ∈ s.rooms then s.rooms
               else (RoomKey.user (identity t), c) :: s.rooms)
        ∧ (on_connect s c authTok queryTok valid identity).2.2
            = [Emit.connected (identity t)]) := by
  refine ⟨?_, ?_, ?_⟩
  · intro hnone
    unfold on_connect
    rw [hnone]
  · intro t ht hbad
    unfold on_connect
    rw [ht]
    have : ¬ (valid t = true ∧ t ∉ s.blacklist) := by
      rcases hbad with hb | hb
      · intro hk; rw [hb] at hk; exact absurd hk.1 (by simp)
      · intro hk; exact hk.2 hb
    simp only [this, if_false]
  · intro t ht hv hbl
    unfold on_connect
    rw [ht]
    have hk : valid t = true ∧ t ∉ s.blacklist := ⟨hv, hbl⟩
    simp only [hk, if_true, and_self]
    refine ⟨rfl, ?_, rfl⟩
    unfold join_room
    by_cases hm : (RoomKey.user (identity t), c) ∈ s.rooms <;> simp [hm]

/-- Witness for C7: with no token at all the connection is closed joining
nothing, and with a fresh valid token 9 (user 9) it becomes authenticated. -/
theorem connect_auth_gate_witness :
    on_connect ⟨[], [], []⟩ 1 none none (fun _ => true) (fun t => t)
        = (⟨[], [], []⟩, ConnState.closed, [])
    ∧ (on_connect ⟨[], [], []⟩ 1 (some 9) none (fun _ => true) (fun t => t)).2.1
        = ConnState.authenticated := by
  constructor
  · exact (connect_auth_gate ⟨[], [], []⟩ 1 none none (fun _ => true) (fun t => t)).1 rfl
  · exact ((connect_auth_gate ⟨[], [], []⟩ 1 (some 9) none (fun _ => true)
      (fun t => t)).2.2 9 rfl rfl (by decide)).1

/-! ### Join/leave sequences and set semantics of room membership (claim C8) -/

/-- A client-initiated room operation, as received by the two handlers. -/
inductive RoomOp where
  | join (c : ConnId) (tok : Tok) (data : Option Nat)
  | leave (c : ConnId) (data : Option Nat)

/-- State effect of one inbound room operation (the handlers' emits are
irrelevant to membership). -/
def applyOp (s : ServerState) : RoomOp → ServerState
  | RoomOp.join c tok data => (on_join_project s c tok data).1
  | RoomOp.leave c data => (on_leave_project s c data).1

/-- State after a finite sequence of join/leave operations. -/
def applyOps (s : ServerState) (ops : List RoomOp) : ServerState :=
  ops.foldl applyOp s

/-- The spec-side fold of the same operation sequence with pure set
semantics (`insert`/`erase` on the set of `(room, connection)` pairs),
gated exactly as the handlers gate (revoked token, truthy project id). -/
def specApplyOp (bl : List Tok) (m : Finset (RoomKey × ConnId)) : RoomOp → Finset (RoomKey × ConnId)
  | RoomOp.join c tok data =>
    if tok ∈ bl then m
    else if truthy data then insert (RoomKey.project (data.getD 0), c) m else m
  | RoomOp.leave c data =>
    if truthy data then m.erase (RoomKey.project (data.getD 0), c) else m

theorem applyOp_blacklist (s : ServerState) (op : RoomOp) :
    (applyOp s op).blacklist = s.blacklist := by
  cases op with
  | join c tok data =>
    simp only [applyOp, on_join_project]
    by_cases h1 : tok ∈ s.blacklist
    · simp [h1]
    · by_cases h2 : truthy data = true
      · simp only [h1, h2, if_false, if_true]
        unfold join_room
        split <;> rfl
      · simp [h1, h2]
  | leave c data =>
    simp only [applyOp, on_leave_project]
    by_cases h2 : truthy data = true
    · simp only [h2, if_true]
      rfl
    · simp [h2]

theorem join_room_nodup {s : ServerState} (h : s.rooms.Nodup) (c : ConnId) (r : RoomKey) :
    (join_room s c r).rooms.Nodup := by
  unfold join_room
  by_cases hm : (r, c) ∈ s.rooms
  · simpa [hm] using h
  · simp only [hm, if_false]
    exact List.nodup_cons.mpr ⟨hm, h⟩

theorem join_room_toFinset (s : ServerState) (c : ConnId) (r : RoomKey) :
    (join_room s c r).rooms.toFinset = insert (r, c) s.rooms.toFinset := by
  unfold join_room
  by_cases hm : (r, c) ∈ s.rooms
  · simp only [hm, if_true]
    exact (Finset.insert_eq_self.mpr (List.mem_toFinset.mpr hm)).symm
  · simp [hm, List.toFinset_cons]

theorem leave_room_nodup {s : ServerState} (h : s.rooms.Nodup) (c : ConnId) (r : RoomKey) :
    (leave_room s c r).rooms.Nodup := by
  unfold leave_room
  exact h.filter _

theorem leave_room_toFinset (s : ServerState) (c : ConnId) (r : RoomKey) :
    (leave_room s c r).rooms.toFinset = s.rooms.toFinset.erase (r, c) := by
  unfold leave_room
  ext x
  simp only [List.mem_toFinset, List.mem_filter, Finset.mem_erase, bne_iff_ne, ne_eq]
  tauto

/-- C8: for every finite sequence of join/leave operations from a
duplicate-free state, the final membership list stays duplicate-free and
its underlying set is exactly the set-semantics fold of the operations:
joining twice adds one entry, leaving a non-member is a no-op, and after a
leave the `(room, connection)` pair is gone. -/
theorem room_membership_set_semantics (ops : List RoomOp) (s : ServerState)
    (h : s.rooms.Nodup) :
    (applyOps s ops).rooms.Nodup
    ∧ (applyOps s ops).rooms.toFinset
        = ops.foldl (specApplyOp s.blacklist) s.rooms.toFinset := by
  induction ops generalizing s with
  | nil => exact ⟨h, rfl⟩
  | cons op ops ih =>
    have hstep : (applyOp s op).rooms.Nodup ∧
        (applyOp s op).rooms.toFinset = specApplyOp s.blacklist s.rooms.toFinset op := by
      cases op with
      | join c tok data =>
        simp only [applyOp, on_join_project, specApplyOp]
        by_cases h1 : tok ∈ s.blacklist
        · simp [h1, h]
        · by_cases h2 : truthy data = true
          · simp only [h1, h2, if_false, if_true]
            exact ⟨join_room_nodup h c _, join_room_toFinset s c _⟩
          · simp [h1, h2, h]
      | leave c data =>
        simp only [applyOp, on_leave_project, specApplyOp]
        by_cases h2 : truthy data = true
        · simp only [h2, if_true]
          exact ⟨leave_room_nodup h c _, leave_room_toFinset s c _⟩
        · simp [h2, h]
    obtain ⟨hnd, hfs⟩ := hstep
    obtain ⟨ih1, ih2⟩ := ih (applyOp s op) hnd
    have hfold : applyOps s (op :: ops) = applyOps (applyOp s op) ops := by
      simp [applyOps, List.foldl_cons]
    refine ⟨by rw [hfold]; exact ih1, ?_⟩
    rw [hfold, ih2, applyOp_blacklist, hfs, List.foldl_cons]

/-- A sample operation sequence for the C8 witness: connection 1 joins
project 7 twice, connection 2 joins it, then connection 1 leaves it. -/
def sampleRoomOps : List RoomOp :=
  [RoomOp.join 1 9 (some 7), RoomOp.join 1 9 (some 7),
   RoomOp.join 2 9 (some 7), RoomOp.leave 1 (some 7)]

/-- Witness for C8 on the sample sequence from the empty state. -/
theorem room_membership_set_semantics_witness :
    (applyOps ⟨[], [], []⟩ sampleRoomOps).rooms.Nodup
    ∧ (applyOps ⟨[], [], []⟩ sampleRoomOps).rooms.toFinset
        = sampleRoomOps.foldl (specApplyOp (ServerState.mk [] [] []).blacklist)
            (ServerState.mk [] [] []).rooms.toFinset :=
  room_membership_set_semantics sampleRoomOps ⟨[], [], []⟩ (by decide)

/-! ### REST handler `create_task` and its (absent) broadcast hook (claim C5) -/

/-- Outcome of a REST handler: HTTP-like status of the JSON response. -/
inductive ApiResult where
  | ok (code : Nat)
  | err (code : Nat)
deriving DecidableEq, Repr

/-- The publish/broadcast calls a REST handler could make (the helpers
`emit_task_created` etc. in `app/utils/websocket_helpers.py` and the
functions of `app/websocket/broadcast_utils.py` exist for exactly these). -/
inductive BroadcastCall where
  | taskCreated
  | taskUpdated
  | taskDeleted
  | taskAssigned
  | projectUpdated
  | memberAdded
  | commentAdded
deriving DecidableEq, Repr

/-- The environment-dependent checks `create_task` performs, in source
order (`app/api/tasks.py`, lines 18-91). -/
structure CreateTaskEnv where
  projectExists : Bool
  userCanAccess : Bool
  assignedTo : Option Nat
  assignedUserExists : Bool
  assignedUserCanAccess : Bool
  priorityValid : Bool
  dueDateValid : Bool
  commitOk : Bool
deriving DecidableEq, Repr

/-- `create_task` (`app/api/tasks.py`, lines 18-91): validation chain, then
`db.session.commit()`; the pair's second component lists the broadcast
calls the handler makes — the handler's source contains none, on any path,
including the successful commit. -/
def create_task (env : CreateTaskEnv) : ApiResult × List BroadcastCall :=
  if ¬ env.projectExists then (ApiResult.err 404, [])
  else if ¬ env.userCanAccess then (ApiResult.err 403, [])
  else if truthy env.assignedTo ∧ ¬ env.assignedUserExists then (ApiResult.err 404, [])
  else if truthy env.assignedTo ∧ ¬ env.assignedUserCanAccess then (ApiResult.err 400, [])
  else if ¬ env.priorityValid then (ApiResult.err 400, [])
  else if ¬ env.dueDateValid then (ApiResult.err 400, [])
  else if env.commitOk then (ApiResult.ok 201, [])
  else (ApiResult.err 500, [])

/-- The C5 failing input: every validation passes and the commit succeeds. -/
def createTaskSuccessEnv : CreateTaskEnv :=
  ⟨true, true, none, true, true, true, true, true⟩

/-- C5 evaluated on the code: a fully successful `create_task` commit
returns 201 and performs no broadcast — no REST handler in `app/api/`
invokes any publish/broadcast hook, on any path. -/
theorem create_task_commits_without_publish :
    create_task createTaskSuccessEnv = (ApiResult.ok 201, [])
    ∧ ∀ env : CreateTaskEnv, (create_task env).2 = [] := by
  constructor
  · decide
  · intro env
    unfold create_task
    repeat' split
    all_goals rfl

/-! ### Failure isolation inside `broadcast_task_assignment` (claim C6) -/

/-- The two wire events `broadcast_task_assignment` sends. -/
inductive WireEvent where
  | taskAssigned
  | taskAssignmentChanged
deriving DecidableEq, Repr

/-- Injected failures for one broadcast run: whether building/sending the
first or the second room emission raises, and which individual
connections' deliveries fail. -/
structure EmitBehavior where
  raisesFirst : Bool
  raisesSecond : Bool
  connFails : ConnId → Bool

/-- Modelled from the spec (§4.1 `send`, external SocketIO transport, not
part of this repository): one `socketio.emit(..., room=r)` hands the event
to every member of the room; a failed delivery to one connection is
swallowed by the framework and does not raise into the caller. -/
def emitToRoom (s : ServerState) (fails : ConnId → Bool) (r : RoomKey) (e : WireEvent) :
    List (ConnId × WireEvent) :=
  (members s r).filterMap (fun c => if fails c then none else some (c, e))

/-- The try-block body of `broadcast_task_assignment`
(`app/websocket/broadcast_utils.py`, lines 16-65): emit `task_assigned` to
the assignee's user room, then `task_assignment_changed` to the project
room.  An exception (`Except.error`) carries the deliveries already made
before the raise. -/
def broadcast_task_assignment_body (s : ServerState) (b : EmitBehavior)
    (assignedToId projectId : Nat) :
    Except (List (ConnId × WireEvent)) (List (ConnId × WireEvent)) :=
  if b.raisesFirst then Except.error []
  else
    let d1 := emitToRoom s b.connFails (RoomKey.user assignedToId) WireEvent.taskAssigned
    if b.raisesSecond then Except.error d1
    else Except.ok
      (d1 ++ emitToRoom s b.connFails (RoomKey.project projectId) WireEvent.taskAssignmentChanged)

/-- `broadcast_task_assignment` itself: the whole body sits in try/except;
an exception is logged and swallowed, so every caller observes a normal
return carrying whatever deliveries were made. -/
def broadcast_task_assignment (s : ServerState) (b : EmitBehavior)
    (assignedToId projectId : Nat) : List (ConnId × WireEvent) :=
  match broadcast_task_assignment_body s b assignedToId projectId with
  | Except.ok ds => ds
  | Except.error ds => ds

/-- A REST mutation that has already committed with result `commit` and
then invokes the broadcast: the broadcast cannot change the result. -/
def commit_then_broadcast (commit : ApiResult) (s : ServerState) (b : EmitBehavior)
    (assignedToId projectId : Nat) : ApiResult × List (ConnId × WireEvent) :=
  (commit, broadcast_task_assignment s b assignedToId projectId)

/-- C6: no failure in the broadcast path escapes — the caller's committed
result is returned unchanged under every failure pattern, and a failed
delivery to one connection never prevents delivery to the other members of
the target rooms. -/
theorem broadcast_failures_isolated (s : ServerState) (b : EmitBehavior)
    (aid pid : Nat) :
    (∀ commit : ApiResult,
      (commit_then_broadcast commit s b aid pid).1 = commit)
    ∧ (b.raisesFirst = false →
        ∀ c, c ∈ members s (RoomKey.user aid) → b.connFails c = false →
          (c, WireEvent.taskAssigned) ∈ broadcast_task_assignment s b aid pid)
    ∧ (b.raisesFirst = false → b.raisesSecond = false →
        ∀ c, c ∈ members s (RoomKey.project pid) → b.connFails c = false →
          (c, WireEvent.taskAssignmentChanged) ∈ broadcast_task_assignment s b aid pid) := by
  refine ⟨fun _ => rfl, ?_, ?_⟩
  · intro h1 c hc hfail
    have hd1 : (c, WireEvent.taskAssigned)
        ∈ emitToRoom s b.connFails (RoomKey.user aid) WireEvent.taskAssigned := by
      unfold emitToRoom
      exact List.mem_filterMap.mpr ⟨c, hc, by simp [hfail]⟩
    unfold broadcast_task_assignment broadcast_task_assignment_body
    by_cases h2 : b.raisesSecond = true
    · simp only [h1, h2, if_false, if_true]
      exact hd1
    · simp only [h1, Bool.not_eq_true] at h2 ⊢
      simp only [h2, if_false, Bool.false_eq_true]
      exact List.mem_append.mpr (Or.inl hd1)
  · intro h1 h2 c hc hfail
    have hd2 : (c, WireEvent.taskAssignmentChanged)
        ∈ emitToRoom s b.connFails (RoomKey.project pid) WireEvent.taskAssignmentChanged := by
      unfold emitToRoom
      exact List.mem_filterMap.mpr ⟨c, hc, by simp [hfail]⟩
    unfold broadcast_task_assignment broadcast_task_assignment_body
    simp only [h1, h2, if_false, Bool.false_eq_true]
    exact List.mem_append.mpr (Or.inr hd2)

/-- Behavior for the C6 witness: nothing raises; delivery to connection 10
fails. -/
def failingEmitBehavior : EmitBehavior :=
  ⟨false, false, fun c => c == 10⟩

/-- State for the C6 witness: connections 10 and 11 are in the assignee's
user room (user 3), connection 12 in the project room (project 7). -/
def assignBroadcastState : ServerState :=
  ⟨[], [], [(RoomKey.user 3, 10), (RoomKey.user 3, 11), (RoomKey.project 7, 12)]⟩

/-- Witness for C6: although delivery to connection 10 fails, connection 11
(same room) and connection 12 (project room) still receive their events,
and the committed REST result is unchanged. -/
theorem broadcast_failures_isolated_witness :
    (commit_then_broadcast (ApiResult.ok 200) assignBroadcastState failingEmitBehavior 3 7).1
        = ApiResult.ok 200
    ∧ (11, WireEvent.taskAssigned)
        ∈ broadcast_task_assignment assignBroadcastState failingEmitBehavior 3 7
    ∧ (12, WireEvent.taskAssignmentChanged)
        ∈ broadcast_task_assignment assignBroadcastState failingEmitBehavior 3 7 := by
  refine ⟨?_, ?_, ?_⟩
  · exact (broadcast_failures_isolated assignBroadcastState failingEmitBehavior 3 7).1
      (ApiResult.ok 200)
  · exact (broadcast_failures_isolated assignBroadcastState failingEmitBehavior 3 7).2.1
      rfl 11 (by decide) (by decide)
  · exact (broadcast_failures_isolated assignBroadcastState failingEmitBehavior 3 7).2.2
      rfl rfl 12 (by decide) (by decide)

/-! ### Project statistics broadcast (claim C10) -/

/-- Round-half-to-even on an exact rational, the rounding mode of Python's
builtin `round` (the source's float arithmetic is modelled exactly over
`ℚ`). -/
def roundHalfEven (q : ℚ) : ℤ :=
  let n := ⌊q⌋
  let f := q - n
  if f < 1/2 then n
  else if 1/2 < f then n + 1
  else if Even n then n else n + 1

/-- `round(x, 2)` on the exact rational value. -/
def round2 (q : ℚ) : ℚ := (roundHalfEven (q * 100) : ℚ) / 100

/-- The `stats` object of the `project_stats_updated` payload. -/
structure ProjectStatsPayload where
  project_id : Nat
  total_tasks : Nat
  completed_tasks : Nat
  in_progress_tasks : Nat
  pending_tasks : Nat
  progress_percentage : ℚ
deriving DecidableEq, Repr

/-- `broadcast_project_stats_update` (`app/websocket/broadcast_utils.py`,
lines 155-193): the four task counts come from the persistence layer
(parameters here); `progress_percentage` is
`completed_tasks / total_tasks * 100` when the project has tasks and `0`
otherwise, rounded to 2 decimal places in the emitted payload; the payload
is emitted to the project room. -/
def broadcast_project_stats_update (pid total completed inProgress pending : Nat) :
    RoomKey × ProjectStatsPayload :=
  let progress : ℚ := if 0 < total then (completed : ℚ) / (total : ℚ) * 100 else 0
  (RoomKey.project pid, ⟨pid, total, completed, inProgress, pending, round2 progress⟩)

/-- C10: the stats broadcast never divides by zero — with zero tasks the
emitted `progress_percentage` is `0`, and otherwise it is
`completed / total * 100` rounded to 2 decimal places; the payload goes to
the project's room. -/
theorem project_stats_progress_safe (pid total completed inProgress pending : Nat) :
    (total = 0 →
      (broadcast_project_stats_update pid total completed inProgress pending).2.progress_percentage
        = 0)
    ∧ (0 < total →
      (broadcast_project_stats_update pid total completed inProgress pending).2.progress_percentage
        = round2 ((completed : ℚ) / (total : ℚ) * 100))
    ∧ (broadcast_project_stats_update pid total completed inProgress pending).1
        = RoomKey.project pid := by
  refine ⟨?_, ?_, rfl⟩
  · intro h
    subst h
    show round2 (if (0 : Nat) < 0 then ((completed : ℚ) / ((0 : Nat) : ℚ) * 100) else 0) = 0
    norm_num [round2, roundHalfEven]
  · intro h
    show round2 (if 0 < total then ((completed : ℚ) / (total : ℚ) * 100) else 0) = _
    rw [if_pos h]

/-- Witness for C10: a project with no tasks reports progress 0; one with
2 of 3 tasks completed reports `round2 (2/3 * 100)`. -/
theorem project_stats_progress_safe_witness :
    (broadcast_project_stats_update 7 0 0 0 0).2.progress_percentage = 0
    ∧ (broadcast_project_stats_update 7 3 2 1 0).2.progress_percentage
        = round2 (((2 : Nat) : ℚ) / ((3 : Nat) : ℚ) * 100) := by
  constructor
  · exact (project_stats_progress_safe 7 0 0 0 0).1 rfl
  · exact (project_stats_progress_safe 7 3 2 1 0).2.1 (by decide)

end TaskManager
